import Mathlib

/-!
Verification of the dslash command-declaration and dispatch layer.

This file gives a shallow embedding of the repository's core:
  * `options.py`  — `CommandOption` (construction-time choice validation,
    wire-type resolution `type_value`, schema `dump`, and runtime coercion
    `__call__`), and `PartialCommandOption.fallbacks`;
  * `commands.py` — the command-node hierarchy (`SlashCommand`,
    `SlashCommandGroup`, `SlashSubCommand`, `SlashCommandSubGroup`), schema
    dumping, invocation routing (`__call__` / `_process_option_data`), the
    error wrapper `SlashCommandInvokeError`, and the declaration builder
    `_process_callback` / `_process_options` / `_process_option`;
  * `client.py`   — `_handle_register_error`.

Python runtime notions are made explicit: raising is `Except`, machine-level
dictionaries are association lists with last-write-wins insertion, Python
class objects are values of the `Ty` type so that the behaviour of
`issubclass` / `isinstance` on `typing.Union` objects (raising `TypeError`)
can be modelled faithfully, and network calls are oracle functions carried in
the guild value together with an explicit trace of fetched ids.
-/

namespace Dslash

/-- Python exception values relevant to the embedded code paths. -/
inductive PyErr where
  | typeError (msg : String)
  | valueError (msg : String)
  | keyError (key : String)
  deriving DecidableEq, Repr

/-- Python classes that appear as option annotations in the source: the
scalar classes, the nextcord model classes the code tests against, and the
`None` class. -/
inductive TyBase where
  | str | bool | int | float
  | user | member | abcUser
  | textChannel | voiceChannel | categoryChannel | guildChannel
  | role
  | noneType
  deriving DecidableEq, Repr

/-- Python annotation objects: either a plain class or a `typing.Union`
application (an object but not a class). `typing` flattens nested unions, so
union arguments are always plain classes. -/
inductive Ty where
  | cls (c : TyBase)
  | union (args : List TyBase)
  deriving DecidableEq, Repr

/-- Runtime values that can appear as option payload values or coercion
results: raw scalars and the guild-scoped model objects. -/
inductive Value where
  | str (s : String)
  | int (n : Int)
  | num (q : Rat)
  | bool (b : Bool)
  | role (id : Int)
  | member (id : Int)
  | channel (id : Int)
  deriving DecidableEq, Repr

/-- The Python class of a runtime value, for `isinstance` checks. -/
def Value.cls : Value → TyBase
  | .str _ => .str
  | .int _ => .int
  | .num _ => .float
  | .bool _ => .bool
  | .role _ => .role
  | .member _ => .member
  | .channel _ => .guildChannel

/-- True subclass facts among the embedded classes: reflexivity plus
`bool <: int` (the one real inheritance the code relies on). -/
def subclassB (t c : TyBase) : Bool :=
  t == c || (t == .bool && c == .int)

/-- Model of `issubclass(t, c)` for a single class: raises `TypeError` when
the first argument is a `typing.Union` object (not a class). -/
def pyIssubclass1 (t : Ty) (c : TyBase) : Except PyErr Bool :=
  match t with
  | .union _ => .error (.typeError "issubclass() arg 1 must be a class")
  | .cls t => .ok (subclassB t c)

/-- Model of `issubclass(t, (c1, ..., cn))` with a tuple second argument. -/
def pyIssubclassN (t : Ty) (cs : List TyBase) : Except PyErr Bool :=
  match t with
  | .union _ => .error (.typeError "issubclass() arg 1 must be a class")
  | .cls t => .ok (cs.any fun c => subclassB t c)

/-- Model of `isinstance(v, t)` for a class `t` (never called on unions in
the embedded paths, because an `issubclass` guard runs first). -/
def pyIsinstance (v : Value) (t : TyBase) : Bool :=
  subclassB v.cls t

/-- Model of Python `int(value)` on the payload value kinds. -/
def pyToInt : Value → Except PyErr Int
  | .int n => .ok n
  | .bool b => .ok (if b then 1 else 0)
  | .str s =>
    match s.toInt? with
    | some n => .ok n
    | none => .error (.valueError "invalid literal for int()")
  | .num q => .ok (if q ≥ 0 then q.floor else -((-q).floor))
  | .role _ => .error (.typeError "int() argument must be a string or a number")
  | .member _ => .error (.typeError "int() argument must be a string or a number")
  | .channel _ => .error (.typeError "int() argument must be a string or a number")

/-- JSON-like data produced by `dump()` (the wire schema). -/
inductive JSON where
  | str (s : String)
  | int (n : Int)
  | num (q : Rat)
  | bool (b : Bool)
  | null
  | arr (items : List JSON)
  | obj (fields : List (String × JSON))
  deriving Repr

/-- JSON form of a payload value (used for choice values). -/
def Value.toJSON : Value → JSON
  | .str s => .str s
  | .int n => .int n
  | .num q => .num q
  | .bool b => .bool b
  | .role n => .int n
  | .member n => .int n
  | .channel n => .int n

/-- One entry of an incoming option-data list: a dict with a `"name"` key and
optional `"type"`, `"value"` and nested `"options"` keys (`None` fields model
absent keys). -/
inductive RawOption where
  | mk (name : String) (type : Option Int) (value : Option Value)
       (options : Option (List RawOption))

/-- The `"name"` field of a raw option entry. -/
def RawOption.name : RawOption → String
  | .mk n _ _ _ => n

/-- The `"type"` field of a raw option entry. -/
def RawOption.type : RawOption → Option Int
  | .mk _ t _ _ => t

/-- The `"value"` field of a raw option entry. -/
def RawOption.value : RawOption → Option Value
  | .mk _ _ v _ => v

/-- The nested `"options"` field of a raw option entry. -/
def RawOption.options : RawOption → Option (List RawOption)
  | .mk _ _ _ o => o

/-- The guild collaborator: cache lookups are association lists, the
network-backed member fetch is an oracle function. -/
structure Guild where
  roles : List (Int × Value)
  members : List (Int × Value)
  channels : List (Int × Value)
  fetchMember : Int → Except PyErr Value

/-- Cache-only role lookup (`guild.get_role`). -/
def Guild.getRole (g : Guild) (id : Int) : Option Value :=
  g.roles.lookup id

/-- Cache-only member lookup (`guild.get_member`). -/
def Guild.getMember (g : Guild) (id : Int) : Option Value :=
  g.members.lookup id

/-- Cache-only channel lookup (`guild.get_channel`). -/
def Guild.getChannel (g : Guild) (id : Int) : Option Value :=
  g.channels.lookup id

/-- `CommandOption` (options.py:27-52): a fully-populated argument slot.
The stored `choices` field keeps the (display-name, value) pairs in
declaration order; the source stores the same data as a list of
`{"name": ..., "value": ...}` dicts. -/
structure CommandOption where
  description : String
  name : String
  argument_name : String
  type : Option Ty
  choices : Option (List (String × Value))
  required : Bool
  deriving DecidableEq, Repr

/-- `CommandOption.__init__` (options.py:30-52). Computes the stored choice
list, then validates: `if choices and not issubclass(type, (int, str))`
raises, and `if choices and not all(isinstance(value, type) ...)` raises.
Note `issubclass` itself raises `TypeError` when `type` is a union object or
`None`, and Python truthiness makes both `None` and `{}` skip the checks. -/
def CommandOption.init (description name argument_name : String) (type : Option Ty)
    (choices : Option (List (String × Value))) (required : Bool) :
    Except PyErr CommandOption :=
  match choices with
  | none => .ok ⟨description, name, argument_name, type, none, required⟩
  | some l =>
    if l.isEmpty then .ok ⟨description, name, argument_name, type, none, required⟩
    else
      match type with
      | none => .error (.typeError "issubclass() arg 1 must be a class")
      | some t =>
        match pyIssubclassN t [.int, .str] with
        | .error e => .error e
        | .ok b =>
          if !b then .error (.typeError "Only int or str options may have choices.")
          else
            match t with
            | .union _ =>
              -- unreachable: `pyIssubclassN` raises on union objects
              .error (.typeError "issubclass() arg 1 must be a class")
            | .cls c =>
              if l.all (fun p => pyIsinstance p.2 c) then
                .ok ⟨description, name, argument_name, type, some l, required⟩
              else .error (.typeError "All choice values must be of the option type.")

/-- `CommandOption.type_value` (options.py:83-104): the Discord numeric type
code. `not self.type` treats a `None` type as string; each `issubclass` call
raises `TypeError` when the stored type is a `typing.Union` object, so the
`typing.get_origin(...) is typing.Union` branch at options.py:100-103 is
reachable only if the earlier calls did not raise. -/
def CommandOption.type_value (o : CommandOption) : Except PyErr Int := do
  match o.type with
  | none => return 3
  | some t =>
    if ← pyIssubclass1 t .str then return 3
    if ← pyIssubclass1 t .bool then return 5
    if ← pyIssubclass1 t .int then return 4
    if ← pyIssubclass1 t .float then return 10
    -- `_is_user_type`: `issubclass(self.type, (User, Member)) or self.type is abc.User`
    if (← pyIssubclassN t [.user, .member]) || t == .cls .abcUser then return 6
    -- `_is_channel_type`
    if (← pyIssubclassN t [.textChannel, .voiceChannel, .categoryChannel])
        || t == .cls .guildChannel then return 7
    if ← pyIssubclass1 t .role then return 8
    match t with
    | .union args =>
      if args = [.user, .member, .role] then return 9
      else throw (.typeError "Union type not allowed for option type (except Mentionable).")
    | .cls _ => throw (.typeError "Unsupported option type.")

/-- `CommandOption.dump` (options.py:54-62): the JSON data registering this
option with the API. -/
def CommandOption.dump (o : CommandOption) : Except PyErr JSON := do
  let tv ← o.type_value
  return .obj
    [("name", .str o.name), ("description", .str o.description),
     ("required", .bool o.required), ("type", .int tv),
     ("choices",
       match o.choices with
       | none => .null
       | some l => .arr (l.map fun p => .obj [("name", .str p.1), ("value", p.2.toJSON)]))]

/-- `CommandOption.__call__` (options.py:106-137): coerce one raw payload
entry. The second component of the result is the trace of member ids fetched
over the network (`guild.fetch_member`). -/
def CommandOption.call (_o : CommandOption) (data : Option RawOption)
    (guild : Option Guild) : Except PyErr (Option Value) × List Int :=
  match data with
  | none => (.ok none, [])
  | some d =>
    match d.value with
    | none => (.ok none, [])
    | some value =>
      match d.type with
      | none => (.error (.keyError "type"), [])
      | some tcode =>
        -- `ApplicationCommandOptionType(data["type"])` raises `ValueError`
        -- on values outside the enum
        if tcode < 1 ∨ 10 < tcode then
          (.error (.valueError "is not a valid ApplicationCommandOptionType"), [])
        else if tcode = 3 ∨ tcode = 5 ∨ tcode = 4 ∨ tcode = 10 then
          (.ok (some value), [])
        else
          match pyToInt value with
          | .error e => (.error e, [])
          | .ok id =>
            match guild with
            | none =>
              (.error (.valueError "User/role/channel option recieved without a guild."), [])
            | some g =>
              if tcode = 9 ∧ (g.getRole id).isSome then (.ok (g.getRole id), [])
              else if tcode = 6 ∨ tcode = 9 then
                match g.getMember id with
                | some m => (.ok (some m), [])
                | none =>
                  match g.fetchMember id with
                  | .ok m => (.ok (some m), [id])
                  | .error e => (.error e, [id])
              else if tcode = 8 then (.ok (g.getRole id), [])
              else if tcode = 7 then (.ok (g.getChannel id), [])
              else (.ok none, [])

/-- `PartialCommandOption` (options.py:140-157): an argument slot with some
attributes left to be filled in from the handler signature. -/
structure PartialCommandOption where
  description : String
  name : Option String
  type : Option Ty
  choices : Option (List (String × Value))
  required : Bool

/-- `PartialCommandOption.fallbacks` (options.py:159-168): fill in the wire
name (`self.name or name`, Python-falsy empty strings included) and the type
(`self.type or type or str`; classes and union objects are always truthy). -/
def PartialCommandOption.fallbacks (p : PartialCommandOption) (name : String)
    (type : Option Ty) : Except PyErr CommandOption :=
  CommandOption.init p.description
    (match p.name with
     | some s => if s = "" then name else s
     | none => name)
    name
    (some (match p.type with
           | some t => t
           | none => match type with
                     | some t => t
                     | none => .cls .str))
    p.choices p.required

/-- Exceptions observable during invocation: Python runtime errors, arbitrary
handler-raised exceptions, and `SlashCommandInvokeError` (commands.py:25-33),
which stores a reference to the original exception in its `original`
attribute. -/
inductive Exn where
  | py (e : PyErr)
  | user (tag : String)
  | invokeError (original : Exn)
  deriving DecidableEq, Repr

/-- The `original` attribute: present exactly on `SlashCommandInvokeError`. -/
def Exn.originalOf : Exn → Option Exn
  | .invokeError e => some e
  | _ => none

/-- The slice of an incoming interaction the routing code reads:
`interaction.data.get("options", [])` (collapsed to one optional list — an
absent `data` dict and an absent `"options"` key both yield `[]`) and
`interaction.guild`. -/
structure Interaction where
  dataOptions : Option (List RawOption)
  guild : Option Guild

/-- The collaborators of an invocation: the behaviour of each registered
handler callback (which may raise), and the client's optional
`custom_interaction` transformer (client.py:59-62, commands.py:141-142). -/
structure Env where
  behavior : String → Interaction → List (String × Option Value) → Except Exn Unit
  customInteraction : Option (Interaction → Interaction)

/-- Python dict insertion: overwrite the value in place if the key exists,
else append. -/
def dictInsert {α : Type} (m : List (String × α)) (k : String) (v : α) :
    List (String × α) :=
  match m with
  | [] => [(k, v)]
  | (k', v') :: rest => if k' = k then (k', v) :: rest else (k', v') :: dictInsert rest k v

/-- `{option["name"]: option for option in full_options}` (commands.py:67):
later entries with the same name overwrite earlier ones. -/
def buildOptionMap (l : List RawOption) : List (String × RawOption) :=
  l.foldl (fun m o => dictInsert m o.name o) []

/-- commands.py:63-66: an explicitly passed non-empty options list wins;
otherwise (including an explicitly passed empty list, which is Python-falsy)
the interaction's own options are used. -/
def fullOptions (i : Interaction) (options : Option (List RawOption)) :
    List RawOption :=
  match options with
  | some l => if l.isEmpty then i.dataOptions.getD [] else l
  | none => i.dataOptions.getD []

/-- commands.py:135-138: for every declared option, look its wire name up in
the incoming map and coerce; the argument dict is keyed by `option.name`.
A coercion exception propagates immediately. -/
def buildArgsGo (g : Option Guild) (opts : List CommandOption)
    (omap : List (String × RawOption)) (acc : List (String × Option Value)) :
    Except PyErr (List (String × Option Value)) :=
  match opts with
  | [] => .ok acc
  | o :: rest =>
    match (CommandOption.call o (omap.lookup o.name) g).1 with
    | .error e => .error e
    | .ok v => buildArgsGo g rest omap (dictInsert acc o.name v)

/-- The assembled keyword-argument mapping for a callable command. -/
def buildArguments (g : Option Guild) (opts : List CommandOption)
    (omap : List (String × RawOption)) : Except PyErr (List (String × Option Value)) :=
  buildArgsGo g opts omap []

/-- The command-node tree (commands.py): the four concrete shapes.
`SlashCommand` = callable top-level, `SlashCommandGroup` = container
top-level, `SlashSubCommand` = callable child, `SlashCommandSubGroup` =
container child. Callable nodes hold their options in declaration order and
a handler identifier resolved through `Env.behavior`. -/
inductive Node where
  | subCmd (name description : String) (options : List CommandOption) (cb : String)
  | subGroup (name description : String) (children : List Node)
  | topCmd (name description : String) (options : List CommandOption) (cb : String)
           (defaultPermission : Bool)
  | topGroup (name description : String) (children : List Node)
             (defaultPermission : Bool)

/-- The `name` attribute of a node. -/
def Node.name : Node → String
  | .subCmd n _ _ _ => n
  | .subGroup n _ _ => n
  | .topCmd n _ _ _ _ => n
  | .topGroup n _ _ _ => n

/-- The observable outcome of one invocation: which handlers were called with
which keyword arguments, and the exception raised out of the routing entry
point, if any. -/
structure InvokeResult where
  calls : List (String × List (String × Option Value))
  err : Option Exn
  deriving DecidableEq, Repr

/-- `CallableSlashCommand._process_option_data` (commands.py:131-145):
assemble arguments, optionally wrap the interaction, call the handler, and
wrap any exception the `try` block raises in `SlashCommandInvokeError`.
Coercion runs before the `try`, so coercion errors propagate unwrapped. -/
def callableStep (env : Env) (i : Interaction) (options : List CommandOption)
    (cb : String) (omap : List (String × RawOption)) : InvokeResult :=
  match buildArguments i.guild options omap with
  | .error e => { calls := [], err := some (.py e) }
  | .ok args =>
    let i' := match env.customInteraction with
              | some f => f i
              | none => i
    match env.behavior cb i' args with
    | .ok _ => { calls := [(cb, args)], err := none }
    | .error e => { calls := [(cb, args)], err := some (.invokeError e) }

/-- The loop of `ContainerSlashCommand._process_option_data`
(commands.py:179-183): the first registered child whose name occurs in the
incoming option map is selected, together with that entry's nested options
(`.get("options", [])`). -/
def findFirstMatch (children : List Node) (omap : List (String × RawOption)) :
    Option (Node × List RawOption) :=
  match children with
  | [] => none
  | c :: rest =>
    match omap.lookup c.name with
    | some entry => some (c, entry.options.getD [])
    | none => findFirstMatch rest omap

/-- A child selected by `findFirstMatch` is one of the registered children. -/
theorem findFirstMatch_mem {cs : List Node} {m : List (String × RawOption)}
    {c : Node} {sub : List RawOption} (h : findFirstMatch cs m = some (c, sub)) :
    c ∈ cs := by
  induction cs with
  | nil => simp [findFirstMatch] at h
  | cons c0 rest ih =>
    unfold findFirstMatch at h
    split at h
    · simp only [Option.some.injEq, Prod.mk.injEq] at h
      obtain ⟨h1, -⟩ := h
      subst h1
      exact List.mem_cons_self _ _
    · exact List.mem_cons_of_mem _ (ih h)

/-- `BaseSlashCommand.__call__` plus `_process_option_data`
(commands.py:57-74, 131-145, 172-183): compute the option map, then either
run the callable step or route to the first matching child, passing the
entry's nested options; with no matching child the container silently
no-ops. -/
def invoke (env : Env) : Node → Interaction → Option (List RawOption) → InvokeResult
  | n, i, opts =>
    let omap := buildOptionMap (fullOptions i opts)
    match n with
    | .subCmd _ _ options cb => callableStep env i options cb omap
    | .topCmd _ _ options cb _ => callableStep env i options cb omap
    | .subGroup _ _ children =>
      match h : findFirstMatch children omap with
      | some (c, sub) => invoke env c i (some sub)
      | none => { calls := [], err := none }
    | .topGroup _ _ children _ =>
      match h : findFirstMatch children omap with
      | some (c, sub) => invoke env c i (some sub)
      | none => { calls := [], err := none }
  termination_by n => sizeOf n
  decreasing_by
  · have hc := List.sizeOf_lt_of_mem (findFirstMatch_mem h)
    simp only [Node.subGroup.sizeOf_spec]
    omega
  · have hc := List.sizeOf_lt_of_mem (findFirstMatch_mem h)
    simp only [Node.topGroup.sizeOf_spec]
    omega

mutual

/-- `dump()` with explicit state threading (commands.py:47-55 together with
the `_add_dump_data` overrides at commands.py:125-129, 166-170, 222-224,
248-251, 277-280, 290-294, 305-308). The node component of the result is the
tree as left behind by the call: the source builds the schema in a fresh
local dict and only reads node state, and the threading makes that visible.
Field order follows the source's dict insertion order for each shape. -/
def Node.dumpT : Node → Except PyErr (Node × JSON)
  | .subCmd n d options cb =>
    match List.mapM CommandOption.dump options with
    | .error e => .error e
    | .ok opts =>
      .ok (.subCmd n d options cb,
        .obj [("name", .str n), ("description", .str d),
              ("options", .arr opts), ("type", .int 1)])
  | .topCmd n d options cb dp =>
    match List.mapM CommandOption.dump options with
    | .error e => .error e
    | .ok opts =>
      .ok (.topCmd n d options cb dp,
        .obj [("name", .str n), ("description", .str d),
              ("options", .arr opts), ("default_permission", .bool dp)])
  | .subGroup n d children =>
    match dumpChildren children with
    | .error e => .error e
    | .ok (cs, js) =>
      .ok (.subGroup n d cs,
        .obj [("name", .str n), ("description", .str d),
              ("options", .arr js), ("type", .int 2)])
  | .topGroup n d children dp =>
    match dumpChildren children with
    | .error e => .error e
    | .ok (cs, js) =>
      .ok (.topGroup n d cs dp,
        .obj [("name", .str n), ("description", .str d),
              ("default_permission", .bool dp), ("options", .arr js)])

/-- Dump every subcommand in registration order (commands.py:169-170). -/
def dumpChildren : List Node → Except PyErr (List Node × List JSON)
  | [] => .ok ([], [])
  | c :: rest =>
    match Node.dumpT c with
    | .error e => .error e
    | .ok (c', j) =>
      match dumpChildren rest with
      | .error e => .error e
      | .ok (cs, js) => .ok (c' :: cs, j :: js)

end

/-- One formal parameter of a handler: its name and its annotation, when the
parameter is annotated (`typing.get_type_hints` only reports annotated
parameters). -/
structure PyParam where
  name : String
  annot : Option Ty

/-- The reflection data of a handler procedure that the declaration builder
reads: `__name__`, the `short_description` of its parsed docstring (the
docstring parsing library is an external collaborator, so its output is an
input here), the parsed `:param:` descriptions, and the signature. -/
structure Callback where
  pyName : String
  shortDescription : Option String
  paramDescriptions : List (String × String)
  params : List PyParam

/-- The result of `CallableSlashCommand._process_callback`: the populated
name, description, and the `options` dict keyed by parameter name in
insertion order. -/
structure BuiltCommand where
  name : String
  description : String
  options : List (String × CommandOption)
  deriving DecidableEq, Repr

/-- Python's keyword-argument call protocol for `CommandOption.__init__`:
all six parameters are keyword-only without defaults, so a call that omits
any of them raises `TypeError` before the body runs. -/
def commandOptionCallKw (kwDescription kwName kwArgumentName : Option String)
    (kwType : Option (Option Ty))
    (kwChoices : Option (Option (List (String × Value))))
    (kwRequired : Option Bool) : Except PyErr CommandOption :=
  match kwDescription, kwName, kwArgumentName, kwType, kwChoices, kwRequired with
  | some d, some nm, some an, some t, some cs, some r =>
    CommandOption.init d nm an t cs r
  | _, _, _, _, _, _ =>
    .error (.typeError
      "__init__() missing required keyword-only arguments: argument_name, choices, required")

/-- `CallableSlashCommand._process_option` (commands.py:117-123): the call
`CommandOption(name=parameter.name, description=description or
\"No description.\", type=annotation)` passes only three of the six required
keyword-only arguments. -/
def processOption (p : PyParam) (annot : Ty) (description : Option String) :
    Except PyErr CommandOption :=
  commandOptionCallKw
    (some (match description with
           | some s => if s = "" then "No description." else s
           | none => "No description."))
    (some p.name) none (some (some annot)) none none

/-- The enumeration loop of `_process_options` (commands.py:97-115): skip a
leading `self` parameter and the interaction parameter, then process each
remaining parameter, reading `annotations[parameter.name]` (`KeyError` when
the parameter is unannotated). -/
def processOptionsGo (cb : Callback) :
    Nat → Bool → List PyParam → List (String × CommandOption) →
    Except PyErr (List (String × CommandOption))
  | _, _, [], acc => .ok acc
  | n, doneSelf, p :: rest, acc =>
    if n = 0 ∧ p.name = "self" then processOptionsGo cb (n + 1) true rest acc
    else if n = 0 ∨ (doneSelf ∧ n = 1) then processOptionsGo cb (n + 1) doneSelf rest acc
    else
      match p.annot with
      | none => .error (.keyError p.name)
      | some ann =>
        match processOption p ann (cb.paramDescriptions.lookup p.name) with
        | .error e => .error e
        | .ok o => processOptionsGo cb (n + 1) doneSelf rest (dictInsert acc p.name o)

/-- `CallableSlashCommand._process_callback` (commands.py:89-95): fall back
to the handler's `__name__` when no explicit name was given, to the
docstring's short description or `"No description."` when no explicit
description was given (Python truthiness: empty strings also fall through),
then process the options. -/
def processCallback (explicitName explicitDescription : Option String)
    (cb : Callback) : Except PyErr BuiltCommand :=
  let nm := match explicitName with
            | some s => if s = "" then cb.pyName else s
            | none => cb.pyName
  let fallbackDesc := match cb.shortDescription with
                      | some s => if s = "" then "No description." else s
                      | none => "No description."
  let desc := match explicitDescription with
              | some s => if s = "" then fallbackDesc else s
              | none => fallbackDesc
  match processOptionsGo cb 0 false cb.params [] with
  | .error e => .error e
  | .ok opts => .ok { name := nm, description := desc, options := opts }

/-- The slice of `nextcord.HTTPException` that `_handle_register_error`
reads and rewrites: the status code, `args[0]` (the message), and the
remaining `args`. -/
structure HTTPError where
  status : Int
  message : String
  restArgs : List String
  deriving DecidableEq, Repr

/-- A dumped command as referenced by the error rewriter: `"In
{name}".format(**error_command)` reads its `"name"` entry, which
`BaseSlashCommand.dump` always sets to the command's name string. -/
structure RegCmd where
  name : String
  deriving DecidableEq, Repr

/-- What `_handle_register_error` raises: the (possibly rewritten) HTTP
error, or an `IndexError` escaping from `commands[int(index)]`. -/
inductive RaisedError where
  | http (e : HTTPError)
  | indexError
  deriving DecidableEq, Repr

/-- Python's `\s` character class (ASCII range). -/
def isPySpace (c : Char) : Bool :=
  c = ' ' || c = '\t' || c = '\n' || c = '\x0d' || c = '\x0b' || c = '\x0c'

/-- `re.findall(r"In\s(\d).", message)`: left-to-right non-overlapping scan;
each match consumes `In`, one whitespace character, one digit (captured) and
one further non-newline character. -/
def reFindIndices : List Char → List Char
  | 'I' :: 'n' :: w :: d :: c :: rest =>
    if isPySpace w ∧ d.isDigit ∧ c ≠ '\n' then d :: reFindIndices rest
    else 'n' :: w :: d :: c :: rest |> reFindIndices
  | _ :: rest => reFindIndices rest
  | [] => []

/-- `set(...)` over the found digit strings, modelled as first-occurrence
deduplication (the properties proved below do not depend on the iteration
order of the Python set). -/
def dedupFirstGo : List Char → List Char → List Char
  | [], _ => []
  | c :: rest, seen =>
    if c ∈ seen then dedupFirstGo rest seen else c :: dedupFirstGo rest (c :: seen)

/-- Deduplicate keeping first occurrences. -/
def dedupFirst (l : List Char) : List Char :=
  dedupFirstGo l []

/-- Scanning loop for `str.replace`: each step consumes at least one input
character, so `s.length` steps of fuel always suffice; the fuel-exhausted
case is unreachable for the initial fuel chosen below. -/
def replaceGo (pat repl : List Char) : Nat → List Char → List Char
  | 0, s => s
  | _ + 1, [] => []
  | fuel + 1, c :: rest =>
    if pat ≠ [] ∧ pat.isPrefixOf (c :: rest) then
      repl ++ replaceGo pat repl fuel ((c :: rest).drop pat.length)
    else c :: replaceGo pat repl fuel rest

/-- `str.replace(pat, repl)`: replace every non-overlapping occurrence,
scanning left to right. -/
def replaceList (s pat repl : List Char) : List Char :=
  replaceGo pat repl s.length s

/-- The rewriting loop of `_handle_register_error` (client.py:231-236):
`error_string.replace(f"In {index}", "In {name}".format(**error_command))`
for each found index, where `commands[int(index)]` raises `IndexError` when
the index is out of range of the submitted batch. -/
def rewriteIndices (indices : List Char) (msg : String) (cmds : List RegCmd) :
    Except Unit String :=
  match indices with
  | [] => .ok msg
  | d :: rest =>
    match cmds[d.toNat - 48]? with
    | none => .error ()
    | some cmd =>
      rewriteIndices rest
        (String.mk (replaceList msg.data ("In " ++ d.toString).data ("In " ++ cmd.name).data))
        cmds

/-- `CommandClient._handle_register_error` (client.py:224-238): on a 400
status, rewrite index references in `args[0]` to name references, then
re-raise; any other status is re-raised untouched. -/
def handleRegisterError (e : HTTPError) (cmds : List RegCmd) : RaisedError :=
  if e.status = 400 then
    match rewriteIndices (dedupFirst (reFindIndices e.message.data)) e.message cmds with
    | .ok msg => .http { e with message := msg }
    | .error _ => .indexError
  else .http e

/-! ## Claim theorems -/

/-- C4: for a payload entry whose `"type"` field is one of the scalar codes
(string = 3, integer = 4, boolean = 5, number = 10), coercion of an absent
entry or of an entry lacking a `"value"` field yields `None`; coercion of a
present value returns that exact value unchanged. The declared `required`
flag is irrelevant: the option `o`, including its flag, is arbitrary. -/
theorem scalar_option_roundtrip (o : CommandOption) (r : RawOption)
    (g : Option Guild) (t : Int) (v : Value)
    (ht : t = 3 ∨ t = 4 ∨ t = 5 ∨ t = 10) :
    CommandOption.call o none g = (.ok none, [])
    ∧ (r.value = none → CommandOption.call o (some r) g = (.ok none, []))
    ∧ (r.type = some t → r.value = some v →
        CommandOption.call o (some r) g = (.ok (some v), [])) := by
  refine ⟨rfl, ?_, ?_⟩
  · intro hv
    cases r with
    | mk nm ty vv oo =>
      simp only [RawOption.value] at hv
      subst hv
      rfl
  · intro htt hv
    cases r with
    | mk nm ty vv oo =>
      simp only [RawOption.type] at htt
      simp only [RawOption.value] at hv
      subst htt
      subst hv
      rcases ht with h | h | h | h <;> subst h <;>
        norm_num [CommandOption.call, RawOption.value, RawOption.type]

/-- C4 witness: a concrete string-typed entry with and without a value, on
an option declared `required := true`. -/
theorem scalar_option_roundtrip_witness :
    ((3 : Int) = 3 ∨ (3 : Int) = 4 ∨ (3 : Int) = 5 ∨ (3 : Int) = 10)
    ∧ (CommandOption.call ⟨"d", "x", "x", some (.cls .str), none, true⟩ none none
        = (.ok none, [])
      ∧ (RawOption.value (.mk "x" (some 3) none none) = none →
          CommandOption.call ⟨"d", "x", "x", some (.cls .str), none, true⟩
            (some (.mk "x" (some 3) none none)) none = (.ok none, []))
      ∧ (RawOption.type (.mk "x" (some 3) (some (.str "hello")) none) = some 3 →
          RawOption.value (.mk "x" (some 3) (some (.str "hello")) none)
            = some (.str "hello") →
          CommandOption.call ⟨"d", "x", "x", some (.cls .str), none, true⟩
            (some (.mk "x" (some 3) (some (.str "hello")) none)) none
            = (.ok (some (.str "hello")), []))) := by
  constructor
  · left
    rfl
  · have h1 := scalar_option_roundtrip ⟨"d", "x", "x", some (.cls .str), none, true⟩
      (.mk "x" (some 3) none none) none 3 (.str "hello") (Or.inl rfl)
    have h2 := scalar_option_roundtrip ⟨"d", "x", "x", some (.cls .str), none, true⟩
      (.mk "x" (some 3) (some (.str "hello")) none) none 3 (.str "hello") (Or.inl rfl)
    exact ⟨h1.1, h1.2.1, h2.2.2⟩

/-- C10: for a role-typed (code 8) or channel-typed (code 7) entry with a
guild present and a value supplied, a cache miss yields `None`: no error is
raised and the network-fetch trace is empty, whatever the option's declared
`required` flag. -/
theorem role_channel_cache_miss (o : CommandOption) (r : RawOption) (g : Guild)
    (v : Value) (id : Int) (hv : r.value = some v) (hid : pyToInt v = .ok id) :
    (r.type = some 8 → g.roles.lookup id = none →
      CommandOption.call o (some r) (some g) = (.ok none, []))
    ∧ (r.type = some 7 → g.channels.lookup id = none →
      CommandOption.call o (some r) (some g) = (.ok none, [])) := by
  cases r with
  | mk nm ty vv oo =>
    simp only [RawOption.value] at hv
    subst hv
    constructor <;> intro ht hmiss <;> simp only [RawOption.type] at ht <;> subst ht <;>
      norm_num [CommandOption.call, RawOption.value, RawOption.type, hid,
        Guild.getRole, Guild.getChannel, hmiss]

/-- C10 witness: a required role option whose id is absent from an empty
role cache, with a fetch oracle that would fail if it were ever consulted. -/
theorem role_channel_cache_miss_witness :
    RawOption.value (.mk "r" (some 8) (some (.int 5)) none) = some (.int 5)
    ∧ pyToInt (.int 5) = .ok 5
    ∧ CommandOption.call ⟨"d", "r", "r", some (.cls .role), none, true⟩
        (some (.mk "r" (some 8) (some (.int 5)) none))
        (some ⟨[], [], [], fun _ => .error (.valueError "network")⟩)
        = (.ok none, []) := by
  refine ⟨rfl, rfl, ?_⟩
  exact (role_channel_cache_miss ⟨"d", "r", "r", some (.cls .role), none, true⟩
    (.mk "r" (some 8) (some (.int 5)) none)
    ⟨[], [], [], fun _ => .error (.valueError "network")⟩
    (.int 5) 5 rfl rfl).1 rfl rfl

/-- C6: wire-type resolution raises `TypeError` on every union-typed
annotation, because `issubclass(self.type, str)` at options.py:86 raises
before the `typing.get_origin` branch at options.py:100-103 can run — for a
single-level optional `str | None` and even for the Mentionable union
`User | Member | Role` whose dedicated branch is therefore unreachable. -/
theorem union_annotation_type_value_raises :
    CommandOption.type_value ⟨"d", "o", "o", some (.union [.str, .noneType]), none, false⟩
      = .error (.typeError "issubclass() arg 1 must be a class")
    ∧ CommandOption.type_value ⟨"d", "o", "o", some (.union [.user, .member, .role]), none, false⟩
      = .error (.typeError "issubclass() arg 1 must be a class") :=
  ⟨rfl, rfl⟩

/-- The condition under which `CommandOption.__init__` accepts a non-empty
choice set: the stored type is a class that is a subclass of `int` or `str`,
and every choice value is an instance of it. -/
def choicesOk (t : Option Ty) (cs : List (String × Value)) : Bool :=
  match t with
  | some (.cls c) =>
    (subclassB c .int || subclassB c .str) && cs.all fun p => pyIsinstance p.2 c
  | some (.union _) => false
  | none => false

/-- C7 counterexample: a number-typed (float) option with a float choice
value — the claim says such a construction succeeds, but the code rejects
any non-`int`/`str` type with `TypeError`. -/
theorem number_choices_rejected :
    ([("half", Value.num (1 / 2))].all fun p => pyIsinstance p.2 .float) = true
    ∧ CommandOption.init "d" "n" "n" (some (.cls .float))
        (some [("half", .num (1 / 2))]) false
      = .error (.typeError "Only int or str options may have choices.") :=
  ⟨rfl, rfl⟩

/-- Reduction of `CommandOption.__init__` on a non-empty choice set over a
plain class type, separating the two `TypeError` checks. -/
theorem init_nonempty_choices (d nm an : String) (c : TyBase)
    (cs : List (String × Value)) (req : Bool) (hne : cs.isEmpty = false) :
    CommandOption.init d nm an (some (.cls c)) (some cs) req =
      if subclassB c .int || subclassB c .str then
        (if cs.all (fun p => pyIsinstance p.2 c) then
          .ok ⟨d, nm, an, some (.cls c), some cs, req⟩
        else .error (.typeError "All choice values must be of the option type."))
      else .error (.typeError "Only int or str options may have choices.") := by
  simp only [CommandOption.init, hne, pyIssubclassN, List.any_cons, List.any_nil,
    Bool.or_false]
  cases h1 : subclassB c .int <;> cases h2 : subclassB c .str <;>
    cases ha : cs.all (fun p => pyIsinstance p.2 c) <;>
      simp [h1, h2, ha]

/-- C7 (amended): constructing a descriptor with a non-empty choice set
raises a declaration-time `TypeError` unless the type is a subclass of
integer or string (number-typed options may not have choices) with every
choice value an instance of it; in that case construction succeeds and the
choices are stored as ordered (name, value) pairs. -/
theorem choices_validation (d nm an : String) (t : Option Ty)
    (cs : List (String × Value)) (req : Bool) (hcs : cs ≠ []) :
    (choicesOk t cs = true →
      CommandOption.init d nm an t (some cs) req = .ok ⟨d, nm, an, t, some cs, req⟩)
    ∧ (choicesOk t cs = false →
      ∃ m, CommandOption.init d nm an t (some cs) req = .error (.typeError m)) := by
  have hne : cs.isEmpty = false := by
    cases cs with
    | nil => exact absurd rfl hcs
    | cons a l => rfl
  constructor
  · intro hok
    match t with
    | some (.cls c) =>
      simp only [choicesOk, Bool.and_eq_true] at hok
      rw [init_nonempty_choices d nm an c cs req hne, if_pos hok.1, if_pos hok.2]
    | some (.union args) => simp [choicesOk] at hok
    | none => simp [choicesOk] at hok
  · intro hbad
    match t with
    | some (.cls c) =>
      rw [init_nonempty_choices d nm an c cs req hne]
      simp only [choicesOk] at hbad
      cases h1 : (subclassB c .int || subclassB c .str) with
      | false =>
        refine ⟨"Only int or str options may have choices.", ?_⟩
        rfl
      | true =>
        rw [h1, Bool.true_and] at hbad
        refine ⟨"All choice values must be of the option type.", ?_⟩
        simp [hbad]
    | some (.union args) =>
      exact ⟨"issubclass() arg 1 must be a class", by
        simp [CommandOption.init, hne, pyIssubclassN]⟩
    | none =>
      exact ⟨"issubclass() arg 1 must be a class", by
        simp [CommandOption.init, hne]⟩

/-- C7 witness: an integer option with one integer choice constructs and
stores the pair; the amended theorem applied at that input. -/
theorem choices_validation_witness :
    ([("one", Value.int 1)] ≠ ([] : List (String × Value)))
    ∧ choicesOk (some (.cls .int)) [("one", .int 1)] = true
    ∧ CommandOption.init "d" "n" "n" (some (.cls .int)) (some [("one", .int 1)]) true
      = .ok ⟨"d", "n", "n", some (.cls .int), some [("one", .int 1)], true⟩ := by
  refine ⟨by decide, rfl, ?_⟩
  exact (choices_validation "d" "n" "n" (some (.cls .int)) [("one", .int 1)] true
    (by decide)).1 rfl

/-- C5: the declaration builder resolves the fallback name and description
as claimed, but crashes with `TypeError` as soon as the handler has any
formal parameter beyond the interaction parameter, because
`_process_option` (commands.py:121-123) calls `CommandOption` without the
required keyword-only arguments `argument_name`, `choices` and `required`
demanded by options.py:30-39. A handler with no extra parameters shows the
name/description fallbacks working; one extra annotated parameter makes the
builder raise instead of producing a descriptor. -/
theorem builder_crashes_on_parameters :
    processCallback none none
        ⟨"greet", some "Say hi.", [], [⟨"interaction", none⟩, ⟨"x", some (.cls .str)⟩]⟩
      = .error (.typeError
          "__init__() missing required keyword-only arguments: argument_name, choices, required")
    ∧ processCallback none none ⟨"greet", some "Say hi.", [], [⟨"interaction", none⟩]⟩
      = .ok { name := "greet", description := "Say hi.", options := [] } :=
  ⟨rfl, rfl⟩

/-- An environment whose handlers all return normally, with no custom
interaction transformer. -/
def okEnv : Env := ⟨fun _ _ _ => .ok (), none⟩

/-- An environment whose handlers all raise a handler exception. -/
def raiseEnv : Env := ⟨fun _ _ _ => .error (.user "boom"), none⟩

/-- C1: for a callable node whose argument assembly succeeds, a handler
callback that raises any exception makes the invocation raise exactly one
`SlashCommandInvokeError` whose `original` attribute is the raised exception
itself; the handler exception never escapes unwrapped. -/
theorem handler_exception_wrapped (env : Env) (n : Node) (nm d : String)
    (options : List CommandOption) (cb : String) (dp : Bool) (i : Interaction)
    (opts : Option (List RawOption)) (args : List (String × Option Value)) (e : Exn)
    (hn : n = .topCmd nm d options cb dp ∨ n = .subCmd nm d options cb)
    (hargs : buildArguments i.guild options (buildOptionMap (fullOptions i opts))
      = .ok args)
    (hbeh : env.behavior cb
        (match env.customInteraction with
         | some f => f i
         | none => i) args = .error e) :
    invoke env n i opts = { calls := [(cb, args)], err := some (.invokeError e) }
    ∧ Exn.originalOf (.invokeError e) = some e := by
  refine ⟨?_, rfl⟩
  rcases hn with h | h <;> subst h <;>
    simp [invoke, callableStep, hargs, hbeh]

/-- C1 witness: a concrete top-level command with no options whose handler
raises; the result is the wrapper carrying that very exception. -/
theorem handler_exception_wrapped_witness :
    buildArguments (Interaction.guild ⟨none, none⟩) []
        (buildOptionMap (fullOptions ⟨none, none⟩ none)) = .ok []
    ∧ raiseEnv.behavior "cb"
        (match raiseEnv.customInteraction with
         | some f => f ⟨none, none⟩
         | none => (⟨none, none⟩ : Interaction)) [] = .error (.user "boom")
    ∧ (invoke raiseEnv (.topCmd "c" "d" [] "cb" true) ⟨none, none⟩ none
        = { calls := [("cb", [])], err := some (.invokeError (.user "boom")) }
      ∧ Exn.originalOf (.invokeError (.user "boom")) = some (.user "boom")) :=
  ⟨rfl, rfl,
    handler_exception_wrapped raiseEnv (.topCmd "c" "d" [] "cb" true) "c" "d" [] "cb"
      true ⟨none, none⟩ none [] (.user "boom") (Or.inl rfl) rfl rfl⟩

/-- C3 data: a descriptor whose wire name differs from its argument name
(exactly what `PartialCommandOption.fallbacks` produces for an explicitly
renamed option). -/
def c3option : CommandOption :=
  ⟨"The argument.", "wire", "arg", some (.cls .str), none, true⟩

/-- C3 node: a callable command declaring only `c3option`. -/
def c3node : Node := .topCmd "cmd" "d" [c3option] "cb" true

/-- C3: evaluating the invocation at a payload supplying the option shows
the keyword-argument mapping passed to the handler is keyed by the wire name
`"wire"`, not by the declared `argument_name` `"arg"` — `_process_option_data`
(commands.py:137-138) reads and writes `option.name` and never
`option.argument_name`. -/
theorem argument_mapping_keyed_by_wire_name :
    (invoke okEnv c3node
        ⟨some [.mk "wire" (some 3) (some (.str "v")) none], none⟩ none).calls
      = [("cb", [("wire", some (.str "v"))])]
    ∧ [c3option].map CommandOption.argument_name = ["arg"]
    ∧ ("wire" : String) ≠ "arg" := by
  refine ⟨?_, rfl, by decide⟩
  norm_num [invoke, callableStep, buildArguments, buildArgsGo, fullOptions,
    buildOptionMap, dictInsert, CommandOption.call, RawOption.name, RawOption.value,
    RawOption.type, c3node, c3option, okEnv, List.lookup]

/-- The first registered child whose name has a payload entry wins; when the
registered names are duplicate-free and only `c`'s name is matched by the
payload, the selected child is `c` with its entry's nested options. -/
theorem findFirstMatch_unique {cs : List Node} {m : List (String × RawOption)}
    {c : Node} {entry : RawOption}
    (hmem : c ∈ cs) (hlook : List.lookup c.name m = some entry)
    (hnodup : (cs.map Node.name).Nodup)
    (honly : ∀ c' ∈ cs, (List.lookup c'.name m).isSome → c'.name = c.name) :
    findFirstMatch cs m = some (c, entry.options.getD []) := by
  induction cs with
  | nil => cases hmem
  | cons c0 rest ih =>
    rcases List.mem_cons.mp hmem with hc | hc
    · subst hc
      unfold findFirstMatch
      rw [hlook]
    · have hnames : c0.name ≠ c.name := by
        intro hEq
        have hmm : c0.name ∈ rest.map Node.name := hEq ▸ List.mem_map_of_mem _ hc
        exact (List.nodup_cons.mp (by simpa using hnodup)).1 hmm
      unfold findFirstMatch
      cases hl0 : List.lookup c0.name m with
      | some entry0 =>
        exact absurd (honly c0 (List.mem_cons_self _ _) (by rw [hl0]; rfl)) hnames
      | none =>
        exact ih hc (List.nodup_cons.mp (by simpa using hnodup)).2
          (fun c' hc' h => honly c' (List.mem_cons_of_mem _ hc') h)

/-- When no registered child's name has a payload entry, no child is
selected. -/
theorem findFirstMatch_none {cs : List Node} {m : List (String × RawOption)}
    (h : ∀ c ∈ cs, List.lookup c.name m = none) :
    findFirstMatch cs m = none := by
  induction cs with
  | nil => rfl
  | cons c0 rest ih =>
    unfold findFirstMatch
    rw [h c0 (List.mem_cons_self _ _)]
    exact ih fun c hc => h c (List.mem_cons_of_mem _ hc)

/-- Unfolding of `invoke` on a sub-group container. -/
theorem invoke_container_subGroup (env : Env) (nm d : String) (cs : List Node)
    (i : Interaction) (opts : Option (List RawOption)) :
    invoke env (.subGroup nm d cs) i opts =
      match findFirstMatch cs (buildOptionMap (fullOptions i opts)) with
      | some (c, sub) => invoke env c i (some sub)
      | none => { calls := [], err := none } := by
  rw [invoke]
  cases hft : findFirstMatch cs (buildOptionMap (fullOptions i opts)) with
  | none => rfl
  | some p => rfl

/-- Unfolding of `invoke` on a top-level group container. -/
theorem invoke_container_topGroup (env : Env) (nm d : String) (cs : List Node)
    (dp : Bool) (i : Interaction) (opts : Option (List RawOption)) :
    invoke env (.topGroup nm d cs dp) i opts =
      match findFirstMatch cs (buildOptionMap (fullOptions i opts)) with
      | some (c, sub) => invoke env c i (some sub)
      | none => { calls := [], err := none } := by
  rw [invoke]
  cases hft : findFirstMatch cs (buildOptionMap (fullOptions i opts)) with
  | none => rfl
  | some p => rfl

/-- C2: for a container node with duplicate-free child names, when the
incoming option map names exactly the child `c` (and no other child),
`invoke` recurses into `c`'s invoke with that entry's nested options list —
so the whole result is `c`'s result and no other child is ever invoked; and
when no incoming entry names a registered child (an empty or absent options
list included), `invoke` returns without error and without invoking any
handler. -/
theorem container_routing (env : Env) (n : Node) (nm d : String) (cs : List Node)
    (dp : Bool) (i : Interaction) (opts : Option (List RawOption))
    (hn : n = .subGroup nm d cs ∨ n = .topGroup nm d cs dp) :
    (∀ c entry, c ∈ cs →
      List.lookup c.name (buildOptionMap (fullOptions i opts)) = some entry →
      (cs.map Node.name).Nodup →
      (∀ c' ∈ cs,
        (List.lookup c'.name (buildOptionMap (fullOptions i opts))).isSome →
        c'.name = c.name) →
      invoke env n i opts = invoke env c i (some (entry.options.getD [])))
    ∧ ((∀ c' ∈ cs, List.lookup c'.name (buildOptionMap (fullOptions i opts)) = none) →
      invoke env n i opts = { calls := [], err := none }) := by
  constructor
  · intro c entry hmem hlook hnodup honly
    have hf := findFirstMatch_unique hmem hlook hnodup honly
    rcases hn with h | h <;> subst h
    · rw [invoke_container_subGroup, hf]
    · rw [invoke_container_topGroup, hf]
  · intro hnone
    have hf := findFirstMatch_none hnone
    rcases hn with h | h <;> subst h
    · rw [invoke_container_subGroup, hf]
    · rw [invoke_container_topGroup, hf]

/-- C2 data: a registered child named `"a"`. -/
def c2childA : Node := .subCmd "a" "da" [] "cbA"

/-- C2 data: a registered child named `"b"`. -/
def c2childB : Node := .subCmd "b" "db" [] "cbB"

/-- C2 data: a container with children `{"a", "b"}`. -/
def c2group : Node := .topGroup "g" "dg" [c2childA, c2childB] true

/-- C2 data: an incoming sub-payload naming only `"b"`. -/
def c2entry : RawOption := .mk "b" (some 1) none (some [])

/-- C2 witness: with a payload naming only `"b"`, routing equals invoking the
`"b"` child with the entry's nested options; with an empty payload the
container silently no-ops. -/
theorem container_routing_witness :
    ((([c2childA, c2childB].map Node.name).Nodup
      ∧ List.lookup c2childB.name
          (buildOptionMap (fullOptions ⟨some [c2entry], none⟩ none)) = some c2entry)
      ∧ invoke okEnv c2group ⟨some [c2entry], none⟩ none
        = invoke okEnv c2childB ⟨some [c2entry], none⟩ (some (c2entry.options.getD [])))
    ∧ invoke okEnv c2group ⟨none, none⟩ none = { calls := [], err := none } := by
  have hpart := container_routing okEnv c2group "g" "dg" [c2childA, c2childB] true
    ⟨some [c2entry], none⟩ none (Or.inr rfl)
  have hpart2 := container_routing okEnv c2group "g" "dg" [c2childA, c2childB] true
    ⟨none, none⟩ none (Or.inr rfl)
  refine ⟨⟨⟨by decide, rfl⟩, ?_⟩, ?_⟩
  · exact hpart.1 c2childB c2entry
      (List.mem_cons_of_mem _ (List.mem_cons_self _ _)) rfl (by decide) (by decide)
  · exact hpart2.2 fun c' _ => rfl

/-- Every index found by the scan that is in range of the batch can be
resolved, so the rewriting loop terminates with a rewritten message. -/
theorem rewriteIndices_ok (cmds : List RegCmd) :
    ∀ (indices : List Char) (msg : String),
    (∀ d ∈ indices, d.toNat - 48 < cmds.length) →
    ∃ msg', rewriteIndices indices msg cmds = .ok msg' := by
  intro indices
  induction indices with
  | nil => exact fun msg _ => ⟨msg, rfl⟩
  | cons d rest ih =>
    intro msg h
    have hd : d.toNat - 48 < cmds.length := h d (List.mem_cons_self _ _)
    unfold rewriteIndices
    rw [List.getElem?_eq_getElem hd]
    exact ih _ fun d' hd' => h d' (List.mem_cons_of_mem _ hd')

/-- C8: whenever every batch index referenced by a client-error message is an
index of a submitted item, `_handle_register_error` re-raises an HTTP error
with the same status and remaining args (the message rewritten on a 400, the
error returned untouched otherwise) — the underlying error is never
swallowed; and the concrete scenario `"In 0: bad name"` with batch
`[{"name": "bad cmd"}]` is rewritten to `"In bad cmd: bad name"`. -/
theorem register_error_reraised :
    (∀ (e : HTTPError) (cmds : List RegCmd),
      (∀ d ∈ dedupFirst (reFindIndices e.message.data), d.toNat - 48 < cmds.length) →
      ∃ e', handleRegisterError e cmds = .http e'
        ∧ e'.status = e.status ∧ e'.restArgs = e.restArgs
        ∧ (e.status ≠ 400 → e' = e))
    ∧ handleRegisterError ⟨400, "In 0: bad name", []⟩ [⟨"bad cmd"⟩]
        = .http ⟨400, "In bad cmd: bad name", []⟩ := by
  constructor
  · intro e cmds hin
    by_cases h400 : e.status = 400
    · obtain ⟨msg', hmsg⟩ :=
        rewriteIndices_ok cmds (dedupFirst (reFindIndices e.message.data)) e.message hin
      refine ⟨{ e with message := msg' }, ?_, rfl, rfl, fun hne => absurd h400 hne⟩
      simp [handleRegisterError, h400, hmsg]
    · exact ⟨e, by simp [handleRegisterError, h400], rfl, rfl, fun _ => rfl⟩
  · rfl

/-- C8 witness: the scenario input satisfies the in-range hypothesis and the
universally quantified part applies to it. -/
theorem register_error_reraised_witness :
    (∀ d ∈ dedupFirst (reFindIndices ("In 0: bad name" : String).data),
      d.toNat - 48 < ([⟨"bad cmd"⟩] : List RegCmd).length)
    ∧ ∃ e', handleRegisterError ⟨400, "In 0: bad name", []⟩ [⟨"bad cmd"⟩] = .http e'
        ∧ e'.status = (400 : Int) ∧ e'.restArgs = ([] : List String)
        ∧ ((400 : Int) ≠ 400 → e' = ⟨400, "In 0: bad name", []⟩) :=
  ⟨by decide,
    register_error_reraised.1 ⟨400, "In 0: bad name", []⟩ [⟨"bad cmd"⟩] (by decide)⟩

/-- Dumping a child list leaves the children unchanged, given that dumping
each member leaves it unchanged. -/
theorem dumpChildren_fst (cs : List Node)
    (ihm : ∀ c ∈ cs, ∀ rc, Node.dumpT c = .ok rc → rc.1 = c) :
    ∀ r, dumpChildren cs = .ok r → r.1 = cs := by
  induction cs with
  | nil =>
    intro r h
    unfold dumpChildren at h
    simp only [Except.ok.injEq] at h
    rw [← h]
  | cons c rest ih =>
    intro r h
    unfold dumpChildren at h
    cases hc : Node.dumpT c with
    | error e => rw [hc] at h; cases h
    | ok p =>
      rw [hc] at h
      cases hr : dumpChildren rest with
      | error e => rw [hr] at h; cases h
      | ok q =>
        rw [hr] at h
        simp only [Except.ok.injEq] at h
        have h1 : p.1 = c := ihm c (List.mem_cons_self _ _) p hc
        have h2 : q.1 = rest :=
          ih (fun c' hc' => ihm c' (List.mem_cons_of_mem _ hc')) q hr
        rw [← h]
        simp [h1, h2]

/-- Dumping a node leaves it unchanged (strong induction on node size). -/
theorem dumpT_fst : ∀ (k : Nat) (n : Node), sizeOf n ≤ k →
    ∀ r, Node.dumpT n = .ok r → r.1 = n := by
  intro k
  induction k with
  | zero =>
    intro n hn
    cases n <;>
      simp only [Node.subCmd.sizeOf_spec, Node.subGroup.sizeOf_spec,
        Node.topCmd.sizeOf_spec, Node.topGroup.sizeOf_spec] at hn <;> omega
  | succ k ih =>
    intro n hn r h
    cases n with
    | subCmd nm d options cb =>
      unfold Node.dumpT at h
      cases hm : List.mapM CommandOption.dump options with
      | error e => rw [hm] at h; cases h
      | ok opts =>
        rw [hm] at h
        simp only [Except.ok.injEq] at h
        rw [← h]
    | topCmd nm d options cb dp =>
      unfold Node.dumpT at h
      cases hm : List.mapM CommandOption.dump options with
      | error e => rw [hm] at h; cases h
      | ok opts =>
        rw [hm] at h
        simp only [Except.ok.injEq] at h
        rw [← h]
    | subGroup nm d children =>
      unfold Node.dumpT at h
      cases hm : dumpChildren children with
      | error e => rw [hm] at h; cases h
      | ok p =>
        rw [hm] at h
        simp only [Except.ok.injEq] at h
        have hsz : sizeOf children < sizeOf (Node.subGroup nm d children) := by
          simp only [Node.subGroup.sizeOf_spec]; omega
        have hcs : p.1 = children := dumpChildren_fst children
          (fun c hc rc hrc => ih c
            (by have h1 := List.sizeOf_lt_of_mem hc; omega) rc hrc) p hm
        rw [← h]
        simp [hcs]
    | topGroup nm d children dp =>
      unfold Node.dumpT at h
      cases hm : dumpChildren children with
      | error e => rw [hm] at h; cases h
      | ok p =>
        rw [hm] at h
        simp only [Except.ok.injEq] at h
        have hsz : sizeOf children < sizeOf (Node.topGroup nm d children dp) := by
          simp only [Node.topGroup.sizeOf_spec]; omega
        have hcs : p.1 = children := dumpChildren_fst children
          (fun c hc rc hrc => ih c
            (by have h1 := List.sizeOf_lt_of_mem hc; omega) rc hrc) p hm
        rw [← h]
        simp [hcs]

/-- C9: `dump()` is deterministic — a successful dump leaves the tree
unchanged, and dumping again yields the identical schema structure (and the
same holds trivially for a failing dump, which depends only on the same
unchanged tree). -/
theorem dump_deterministic (n n' : Node) (s : JSON)
    (h : Node.dumpT n = .ok (n', s)) :
    n' = n ∧ Node.dumpT n' = .ok (n', s) := by
  have h1 : n' = n := dumpT_fst (sizeOf n) n (le_refl _) (n', s) h
  subst h1
  exact ⟨rfl, h⟩

/-- C9 data: a two-level tree with one subcommand carrying one option. -/
def c9node : Node :=
  .topGroup "grp" "Group."
    [.subCmd "ping" "Ping." [⟨"The message.", "msg", "msg", some (.cls .str), none, false⟩] "cb"]
    true

/-- C9 data: the schema `c9node` dumps to. -/
def c9json : JSON :=
  .obj [("name", .str "grp"), ("description", .str "Group."),
        ("default_permission", .bool true),
        ("options", .arr
          [.obj [("name", .str "ping"), ("description", .str "Ping."),
                 ("options", .arr
                   [.obj [("name", .str "msg"), ("description", .str "The message."),
                          ("required", .bool false), ("type", .int 3),
                          ("choices", .null)]]),
                 ("type", .int 1)]])]

/-- C9 witness: dumping the concrete tree succeeds, leaves it unchanged, and
a second dump returns the identical schema. -/
theorem dump_deterministic_witness :
    Node.dumpT c9node = .ok (c9node, c9json)
    ∧ (c9node = c9node ∧ Node.dumpT c9node = .ok (c9node, c9json)) :=
  ⟨rfl, dump_deterministic c9node c9node c9json rfl⟩

end Dslash
